import Mathlib

/-!
Shallow embedding of the conversation-history / retry-call core of the
gemini-chat-bot repository (Google Apps Script), together with proofs about
the spec's claims.

Three variants of the orchestrator exist in the sources and are embedded in
three namespaces:
* `Code`    : `コード.js` (plain variant; `processMessage` rethrows errors);
* `Perf`    : the unnamed optimized variant (`src/unnamed/part_000`;
              `processMessage` converts errors to user-facing strings,
              `getConversationHistory` restores from the log sheet on cache
              miss, `trimConversationHistory` keeps system-role entries);
* `Minimal` : `minimal-コード.js`.

Modelling conventions:
* JavaScript strings are `String`; string falsiness is the `= ""` test.
* A JS `Error` is represented by its `message` string.  `toString` of an
  error is `"Error: " ++ message`; none of the substring patterns inspected
  by the code (`"UrlFetchApp"`, `"Network"`, `"Timeout"`, `"API一時エラー"`,
  …) can overlap the `"Error: "` prefix boundary (the prefix contains none
  of their characters), so substring tests on `toString` and on `message`
  agree and both are modelled as tests on the message.
* The network is an oracle `Nat → FetchOutcome` giving the outcome of each
  delivery attempt (HTTP code plus parsed JSON body and raw body text, or a
  thrown transport exception).  A thrown `getApiKey` failure inside an
  attempt is modelled as a `raised` outcome carrying its message.
* The script cache holding the serialized conversation mapping is
  `Option Store` (`none` = expired / absent key); the append-only log sheet
  is a `List LogRow` in write order.  The optimized variant buffers log rows
  and flushes the buffer before `processMessage` returns on every path, so
  observationally the log behaves as immediate appends and is modelled so.
-/

deriving instance DecidableEq for Except

namespace GeminiChat

/-! ### JavaScript `String.prototype.includes` -/

/-- Does `pat` occur at the head of `l`? (char-list prefix test). -/
def matchesAt : List Char → List Char → Bool
  | [], _ => true
  | _ :: _, [] => false
  | p :: ps, c :: cs => p = c && matchesAt ps cs

/-- Does `pat` occur anywhere in `l`? -/
def occursIn (pat : List Char) : List Char → Bool
  | [] => matchesAt pat []
  | c :: cs => matchesAt pat (c :: cs) || occursIn pat cs

/-- JS `s.includes(pat)`. -/
def strIncludes (s pat : String) : Bool :=
  occursIn pat.data s.data

theorem matchesAt_subset {pat l : List Char} (h : matchesAt pat l = true) :
    ∀ c ∈ pat, c ∈ l := by
  induction pat generalizing l with
  | nil => intro c hc; cases hc
  | cons p ps ih =>
    cases l with
    | nil => simp [matchesAt] at h
    | cons x xs =>
      simp only [matchesAt, Bool.and_eq_true, decide_eq_true_eq] at h
      intro c hc
      rcases List.mem_cons.mp hc with hc | hc
      · subst hc; exact List.mem_cons.mpr (Or.inl h.1)
      · exact List.mem_cons.mpr (Or.inr (ih h.2 c hc))

theorem occursIn_subset {pat l : List Char} (h : occursIn pat l = true) :
    ∀ c ∈ pat, c ∈ l := by
  induction l with
  | nil =>
    intro c hc
    cases pat with
    | nil => cases hc
    | cons p ps => simp [occursIn, matchesAt] at h
  | cons x xs ih =>
    simp only [occursIn, Bool.or_eq_true] at h
    intro c hc
    rcases h with h | h
    · exact matchesAt_subset h c hc
    · exact List.mem_cons.mpr (Or.inr (ih h c hc))

theorem matchesAt_append_left {p q l : List Char}
    (h : matchesAt (p ++ q) l = true) : matchesAt p l = true := by
  induction p generalizing l with
  | nil => rfl
  | cons a as ih =>
    cases l with
    | nil => simp [matchesAt] at h
    | cons x xs =>
      simp only [List.cons_append, matchesAt, Bool.and_eq_true] at h ⊢
      exact ⟨h.1, ih h.2⟩

theorem occursIn_append_left {p q l : List Char}
    (h : occursIn (p ++ q) l = true) : occursIn p l = true := by
  induction l with
  | nil =>
    cases p with
    | nil => rfl
    | cons a as =>
      simp [occursIn, matchesAt] at h
  | cons x xs ih =>
    simp only [occursIn, Bool.or_eq_true] at h ⊢
    rcases h with h | h
    · exact Or.inl (matchesAt_append_left h)
    · exact Or.inr (ih h)

/-- If some character of `pat` appears nowhere in `s`, then `s.includes(pat)`
is false. -/
theorem strIncludes_eq_false {s pat : String} {c : Char}
    (hc : c ∈ pat.data) (hs : c ∉ s.data) : strIncludes s pat = false := by
  cases h : strIncludes s pat
  · rfl
  · exact absurd (occursIn_subset h c hc) hs

/-! ### Decimal rendering of HTTP status codes

The embedded code builds error messages containing `Nat.repr code`; the
substring classifications need to know those digits contain no letters. -/

theorem digitChar_isDigit : ∀ m, m < 10 → (Nat.digitChar m).isDigit = true := by
  decide

theorem toDigitsCore_digits :
    ∀ (fuel n : Nat) (ds : List Char), (∀ c ∈ ds, c.isDigit = true) →
      ∀ c ∈ Nat.toDigitsCore 10 fuel n ds, c.isDigit = true := by
  intro fuel
  induction fuel with
  | zero => intro n ds hds c hc; exact hds c hc
  | succ fuel ih =>
    intro n ds hds c hc
    have hdig : (Nat.digitChar (n % 10)).isDigit = true :=
      digitChar_isDigit _ (Nat.mod_lt _ (by decide))
    have hcons : ∀ d ∈ Nat.digitChar (n % 10) :: ds, d.isDigit = true := by
      intro d hd
      rcases List.mem_cons.mp hd with hd | hd
      · subst hd; exact hdig
      · exact hds d hd
    unfold Nat.toDigitsCore at hc
    simp only at hc
    split at hc
    · rcases List.mem_cons.mp hc with hc | hc
      · subst hc; exact hdig
      · exact hds c hc
    · exact ih _ _ hcons c hc

theorem repr_chars_isDigit (n : Nat) : ∀ c ∈ (Nat.repr n).data, c.isDigit = true := by
  intro c hc
  have : (Nat.repr n).data = Nat.toDigitsCore 10 (n + 1) n [] := rfl
  rw [this] at hc
  exact toDigitsCore_digits (n + 1) n [] (by intro d hd; cases hd) c hc

/-! ### Configuration constants (コード.js and part_000 use identical values) -/

def MAX_HISTORY_LENGTH : Nat := 10
def CACHE_DURATION : Nat := 21600
def maxRetries : Nat := 3
def baseDelay : Nat := 1000

def NO_API_KEY : String := "APIキーが設定されていません"
def API_CALL_FAILED : String := "Gemini APIの呼び出しに失敗しました"
def NO_RESPONSE : String := "Gemini APIからの応答がありません"
def INVALID_USER_ID : String := "ユーザーIDが無効です"
def INVALID_MESSAGE : String := "メッセージが無効です"
def USER_RATE_LIMIT : String := "現在リクエストが多いため、少々お待ちください。30秒後に再度お試しください。"
def USER_SERVICE_UNAVAILABLE : String := "AIサービスが一時的に利用できません。数分後に再度お試しください。"
def USER_NETWORK_ERROR : String := "ネットワークエラーが発生しました。インターネット接続を確認してください。"
def USER_TIMEOUT : String := "応答時間が長すぎます。もう一度お試しください。"
def USER_API_ERROR : String := "AI APIに問題が発生しています。管理者にお問い合わせください。"
def USER_GENERIC_ERROR : String := "エラーが発生しました。しばらくしてから再度お試しください。"
def USER_API_KEY_CONFIG : String := "APIキーの設定に問題があります。管理者にお問い合わせください。"

/-! ### Data model -/

/-- One element of a `parts` array: `{ text: ... }`. -/
structure TextPart where
  text : String
  deriving DecidableEq

/-- One conversation turn as stored in the history:
`{ role: ..., parts: [{ text: ... }] }`. -/
structure HistEntry where
  role : String
  parts : List TextPart
  deriving DecidableEq

/-- One appended row of the log sheet:
`[timestamp, userId, role, message, tokenCount]`.  Rows are kept in write
order (the list order), which subsumes the timestamp column. -/
structure LogRow where
  userId : String
  role : String
  message : String
  tokens : Nat
  deriving DecidableEq

/-- The deserialized conversation mapping held under the single cache key.
A JS object with an absent key behaves as the empty conversation (the
orchestrator initializes missing entries to `[]` before use). -/
def Store : Type := String → List HistEntry

def emptyStore : Store := fun _ => []

def storeSet (s : Store) (k : String) (v : List HistEntry) : Store :=
  fun q => if q = k then v else s q

/-- Script-cache plus log-sheet state. `cache = none` models an expired or
absent cache entry. -/
structure CacheState where
  cache : Option Store
  log : List LogRow

/-! ### Token estimator (`estimateTokenCount`) -/

/-- Character class of the regex `[぀-ゟ゠-ヿ一-龯]`. -/
def isJapaneseChar (c : Char) : Bool :=
  (0x3040 ≤ c.toNat && c.toNat ≤ 0x309f) ||
  (0x30a0 ≤ c.toNat && c.toNat ≤ 0x30ff) ||
  (0x4e00 ≤ c.toNat && c.toNat ≤ 0x9faf)

/-- `Math.ceil(japaneseChars * 2 + otherChars / 4)`; the first summand is an
integer, so the ceiling is `j * 2 + ⌈o / 4⌉`. -/
def estimateTokenCount (text : String) : Nat :=
  if text = "" then 0
  else
    let japaneseChars := (text.data.filter isJapaneseChar).length
    let otherChars := text.data.length - japaneseChars
    japaneseChars * 2 + (otherChars + 3) / 4

/-- `logChat` row construction (timestamp column modelled by list position). -/
def mkLogRow (userId role message : String) : LogRow :=
  ⟨userId, role, message, estimateTokenCount message⟩

/-! ### Response envelope and `extractResponseText` -/

structure RespContent where
  parts : List TextPart
  deriving DecidableEq

/-- `candidates[i]`; `content` may be absent (e.g. a blocked candidate). -/
structure Candidate where
  content : Option RespContent
  deriving DecidableEq

/-- The parsed JSON body of a 200 response. -/
structure GeminiResponse where
  candidates : List Candidate
  deriving DecidableEq

/-- コード.js `extractResponseText`: throws `NO_RESPONSE` when
`!responseJson?.candidates?.length || !candidates[0]?.content?.parts?.length`,
otherwise returns `candidates[0].content.parts[0].text`. -/
def extractResponseText (responseJson : GeminiResponse) : Except String String :=
  match responseJson.candidates with
  | [] => .error NO_RESPONSE
  | c :: _ =>
    match c.content with
    | none => .error NO_RESPONSE
    | some content =>
      match content.parts with
      | [] => .error NO_RESPONSE
      | p :: _ => .ok p.text

/-- Spec-side description of the reply-text path
`candidates[0].content.parts[0].text` (absent when any step is missing). -/
def firstPartText (r : GeminiResponse) : Option String :=
  (((r.candidates.head?.bind Candidate.content).bind
    (fun content => content.parts.head?)).map TextPart.text)

/-! ### AI client: `callGeminiAPI` (コード.js / part_000, identical logic) -/

/-- Outcome of one delivery attempt (`UrlFetchApp.fetch` with
`muteHttpExceptions: true`): an HTTP response with its status code, parsed
JSON body and raw body text, or a thrown exception carrying its message
(transport failures, and `getApiKey()` throwing `NO_API_KEY` while the
request URL is being built inside the attempt). -/
inductive FetchOutcome where
  | reply (code : Nat) (body : GeminiResponse) (rawText : String)
  | raised (msg : String)

/-- Observable behaviour of one `callGeminiAPI` run: the sequence of
`Utilities.sleep` delays (ms), the number of attempts performed, and the
returned text or thrown error message. -/
structure CallOutcome where
  sleeps : List Nat
  fetches : Nat
  result : Except String String
  deriving DecidableEq

/-- The wait at the top of iteration `attempt`:
`attempt > 0 → sleep(baseDelay * 2^(attempt-1))`. -/
def preSleep (attempt : Nat) : List Nat :=
  if attempt > 0 then [baseDelay * 2 ^ (attempt - 1)] else []

/-- `error.toString().includes('UrlFetchApp') || ...('Network') || ...('Timeout')`. -/
def isTransportError (msg : String) : Bool :=
  strIncludes msg "UrlFetchApp" || strIncludes msg "Network" || strIncludes msg "Timeout"

inductive CatchAction where
  | retry
  | rethrow

/-- The `catch` block of the retry loop: transport errors `continue`;
anything else is rethrown unless its message contains `API一時エラー`
(in which case control falls through to the next iteration). -/
def jsCatch (msg : String) : CatchAction :=
  if isTransportError msg then .retry
  else if strIncludes msg "API一時エラー" then .retry
  else .rethrow

/-- `lastError` recorded for a retryable status code:
`API一時エラー (<code>): リトライします`. -/
def transientReplyMsg (code : Nat) : String :=
  "API一時エラー (" ++ Nat.repr code ++ "): リトライします"

/-- `Gemini APIの呼び出しに失敗しました: <code>`. -/
def apiCallFailedMsg (code : Nat) : String :=
  API_CALL_FAILED ++ ": " ++ Nat.repr code

/-- `API呼び出しが<maxRetries>回失敗しました: <lastError.message>`.  When the
loop exits, `lastError` has always been set; `getD` covers the unreachable
`null` case. -/
def retriesExhaustedMsg (lastError : Option String) : String :=
  "API呼び出しが" ++ Nat.repr maxRetries ++ "回失敗しました: " ++ lastError.getD "null"

/-- The `for (attempt = 0; attempt < maxRetries; attempt++)` loop, with
`fuel = maxRetries - attempt` remaining iterations.  Each iteration sleeps
`preSleep attempt`, performs one fetch, and either returns, rethrows, or
continues with an updated `lastError`. -/
def callLoop (oracle : Nat → FetchOutcome) : Nat → Nat → Option String → CallOutcome
  | 0, _, lastError => ⟨[], 0, .error (retriesExhaustedMsg lastError)⟩
  | fuel + 1, attempt, _lastError =>
    match oracle attempt with
    | .raised msg =>
      match jsCatch msg with
      | .retry =>
        let rest := callLoop oracle fuel (attempt + 1) (some msg)
        ⟨preSleep attempt ++ rest.sleeps, rest.fetches + 1, rest.result⟩
      | .rethrow => ⟨preSleep attempt, 1, .error msg⟩
    | .reply code body _rawText =>
      if code = 200 then
        match extractResponseText body with
        | .ok text => ⟨preSleep attempt, 1, .ok text⟩
        | .error e =>
          -- thrown inside `try`, routed through the same catch block
          match jsCatch e with
          | .retry =>
            let rest := callLoop oracle fuel (attempt + 1) (some e)
            ⟨preSleep attempt ++ rest.sleeps, rest.fetches + 1, rest.result⟩
          | .rethrow => ⟨preSleep attempt, 1, .error e⟩
      else if code = 429 ∨ code = 503 then
        let rest := callLoop oracle fuel (attempt + 1) (some (transientReplyMsg code))
        ⟨preSleep attempt ++ rest.sleeps, rest.fetches + 1, rest.result⟩
      else
        -- `throw new Error(API_CALL_FAILED: code)` inside `try`, caught below
        match jsCatch (apiCallFailedMsg code) with
        | .retry =>
          let rest := callLoop oracle fuel (attempt + 1) (some (apiCallFailedMsg code))
          ⟨preSleep attempt ++ rest.sleeps, rest.fetches + 1, rest.result⟩
        | .rethrow => ⟨preSleep attempt, 1, .error (apiCallFailedMsg code)⟩

def callGeminiAPI (oracle : Nat → FetchOutcome) : CallOutcome :=
  callLoop oracle maxRetries 0 none

/-- The transient indicators of the spec: HTTP 429, HTTP 503, or a
transport-level failure. -/
def isTransient : FetchOutcome → Bool
  | .reply code _ _ => code = 429 || code = 503
  | .raised msg => isTransportError msg

/-! ### History append (identical in コード.js and part_000) -/

/-- `addMessageToHistory(history, role, text)`:
`history.push({ role: role, parts: [{ text: text }] })`. -/
def addMessageToHistory (history : List HistEntry) (role text : String) :
    List HistEntry :=
  history ++ [{ role := role, parts := [{ text := text }] }]

/-- Observable behaviour of one `processMessage` invocation: the returned
reply or thrown error message, the cache and log afterwards, and the number
of fetches issued to the AI endpoint. -/
structure ProcOutcome where
  result : Except String String
  cache : Option Store
  log : List LogRow
  fetches : Nat

namespace Code

/-! #### コード.js variant -/

/-- `trimConversationHistory`: `splice(0, length - MAX)` keeps the last
`MAX` entries. -/
def trimConversationHistory (history : List HistEntry) : List HistEntry :=
  if history.length > MAX_HISTORY_LENGTH then
    history.drop (history.length - MAX_HISTORY_LENGTH)
  else history

/-- `getConversationHistory()` (no argument in this variant):
`cached ? JSON.parse(cached) : {}`. -/
def getConversationHistory (st : CacheState) : Store :=
  st.cache.getD emptyStore

/-- `processMessage(userId, message)`: validation throws before the `try`
block; inside it the user turn is appended and logged, the history trimmed,
the AI called, the model turn appended and logged, and the store saved.
The `catch` logs to console and rethrows, so any AI-client error propagates
with the cache unsaved. -/
def processMessage (oracle : Nat → FetchOutcome) (userId message : String)
    (st : CacheState) : ProcOutcome :=
  if userId = "" then ⟨.error INVALID_USER_ID, st.cache, st.log, 0⟩
  else if message = "" then ⟨.error INVALID_MESSAGE, st.cache, st.log, 0⟩
  else
    let conversationHistory := getConversationHistory st
    let conv1 := addMessageToHistory (conversationHistory userId) "user" message
    let log1 := st.log ++ [mkLogRow userId "user" message]
    let conv2 := trimConversationHistory conv1
    let call := callGeminiAPI oracle
    match call.result with
    | .error e => ⟨.error e, st.cache, log1, call.fetches⟩
    | .ok response =>
      let conv3 := addMessageToHistory conv2 "model" response
      let log2 := log1 ++ [mkLogRow userId "model" response]
      ⟨.ok response, some (storeSet conversationHistory userId conv3), log2, call.fetches⟩

/-- Store states reachable from a fresh deployment (empty cache, empty log)
by `processMessage` invocations. -/
inductive Reachable : CacheState → Prop
  | init : Reachable ⟨none, []⟩
  | step (oracle : Nat → FetchOutcome) (userId message : String) (st : CacheState) :
      Reachable st →
      Reachable ⟨(processMessage oracle userId message st).cache,
                 (processMessage oracle userId message st).log⟩

end Code

namespace Perf

/-! #### part_000 (optimized) variant -/

/-- JS `Array.prototype.slice(start)` with a possibly negative start. -/
def jsSliceFrom (l : List HistEntry) (start : Int) : List HistEntry :=
  if start < 0 then l.drop (l.length + start).toNat else l.drop start.toNat

/-- part_000 `trimConversationHistory` ("smart trimming"): keeps every
system-role entry and the last `MAX` non-system entries. -/
def trimConversationHistory (history : List HistEntry) : List HistEntry :=
  if history.length > MAX_HISTORY_LENGTH then
    let systemMessages := history.filter (fun msg => msg.role = "system")
    let conversationMessages := history.filter (fun msg => ¬ msg.role = "system")
    let trimmedConversation :=
      jsSliceFrom conversationMessages
        ((conversationMessages.length : Int) - (MAX_HISTORY_LENGTH : Int))
    systemMessages ++ trimmedConversation
  else history

/-- The scan loop of `restoreHistoryFromLogSheet`: walk the rows of the
sheet from newest to oldest while fewer than `limit` turns are collected,
keeping rows of this user with a non-empty message and a role other than
`system`, `unshift`ing each kept row so the result is chronological. -/
def restoreGo (userId : String) (limit : Nat) :
    List LogRow → List HistEntry → List HistEntry
  | [], acc => acc
  | row :: rest, acc =>
    if acc.length < limit then
      if row.userId = userId ∧ row.message ≠ "" then
        if row.role ≠ "system" then
          restoreGo userId limit rest
            ({ role := row.role, parts := [{ text := row.message }] } :: acc)
        else restoreGo userId limit rest acc
      else restoreGo userId limit rest acc
    else acc

/-- `restoreHistoryFromLogSheet(userId, limit = MAX_HISTORY_LENGTH)`. -/
def restoreHistoryFromLogSheet (log : List LogRow) (userId : String)
    (limit : Nat) : List HistEntry :=
  restoreGo userId limit log.reverse []

/-- part_000 `getConversationHistory(userId)`: on a cache hit return the
parsed store; on a miss, when a userId was supplied, reconstruct that
user's turns from the log sheet and — when non-empty — immediately save the
single-user mapping back to the cache; otherwise return `{}`.  Returns the
loaded store together with the cache contents afterwards. -/
def getConversationHistory (userId : String) (st : CacheState) :
    Store × Option Store :=
  match st.cache with
  | some store => (store, some store)
  | none =>
    if userId = "" then (emptyStore, none)
    else
      let restoredHistory := restoreHistoryFromLogSheet st.log userId MAX_HISTORY_LENGTH
      if restoredHistory.length > 0 then
        let restored := storeSet emptyStore userId restoredHistory
        (restored, some restored)
      else (emptyStore, none)

inductive CatchResult where
  | reply (userMessage : String)
  | rethrow

/-- The `catch` block of part_000 `processMessage`: pick a user-facing
string by inspecting `error.message`, except that a message containing
`INVALID` is rethrown. -/
def classifyProcessError (msg : String) : CatchResult :=
  if strIncludes msg "429" then .reply USER_RATE_LIMIT
  else if strIncludes msg "503" then .reply USER_SERVICE_UNAVAILABLE
  else if strIncludes msg "Network" || strIncludes msg "UrlFetch" then .reply USER_NETWORK_ERROR
  else if strIncludes msg "Timeout" then .reply USER_TIMEOUT
  else if strIncludes msg "API" then .reply USER_API_ERROR
  else if strIncludes msg "API_KEY" then .reply USER_API_KEY_CONFIG
  else if strIncludes msg "INVALID" then .rethrow
  else .reply USER_GENERIC_ERROR

/-- `logChat(userId, 'system', '[エラー] ' + (error.message || 'Unknown error'))`. -/
def systemErrText (msg : String) : String :=
  "[エラー] " ++ (if msg = "" then "Unknown error" else msg)

/-- part_000 `processMessage(userId, message)`: like the コード.js variant
but the load passes `userId` (enabling restore-from-log, which may itself
write the cache), and the `catch` converts AI-client errors to user-facing
strings (returned, not thrown), logging a system-role record. -/
def processMessage (oracle : Nat → FetchOutcome) (userId message : String)
    (st : CacheState) : ProcOutcome :=
  if userId = "" then ⟨.error INVALID_USER_ID, st.cache, st.log, 0⟩
  else if message = "" then ⟨.error INVALID_MESSAGE, st.cache, st.log, 0⟩
  else
    let loaded := getConversationHistory userId st
    let conversationHistory := loaded.1
    let cache1 := loaded.2
    let conv1 := addMessageToHistory (conversationHistory userId) "user" message
    let log1 := st.log ++ [mkLogRow userId "user" message]
    let conv2 := trimConversationHistory conv1
    let call := callGeminiAPI oracle
    match call.result with
    | .ok response =>
      let conv3 := addMessageToHistory conv2 "model" response
      let log2 := log1 ++ [mkLogRow userId "model" response]
      ⟨.ok response, some (storeSet conversationHistory userId conv3), log2, call.fetches⟩
    | .error e =>
      match classifyProcessError e with
      | .rethrow => ⟨.error e, cache1, log1, call.fetches⟩
      | .reply userMessage =>
        let log2 := log1 ++ [mkLogRow userId "system" (systemErrText e)]
        ⟨.ok userMessage, cache1, log2, call.fetches⟩

end Perf

namespace Minimal

/-! #### minimal-コード.js variant

The file declares its configuration object as `MINIMAL_MINIMAL_CONFIG`
(line 7) while every function body reads `MINIMAL_CONFIG`, an identifier
declared nowhere in the repository; dereferencing it throws a
`ReferenceError`.  Consequently:
* `logToSheet` reads `MINIMAL_CONFIG.SHEETS.LOG` as the first statement of
  its internal `try`, and its own `catch` swallows the `ReferenceError`
  before `appendRow` is reached — `logToSheet` never appends a row;
* after validation, `processMessage` reaches
  `history.length > MINIMAL_CONFIG.MAX_HISTORY * 2` and throws the
  `ReferenceError` before any fetch; the catch-all handler calls
  `logToSheet` (appending nothing) and rethrows. -/

def MINIMAL_INVALID : String := "ユーザーIDまたはメッセージが無効です"

/-- The message of the `ReferenceError` thrown by reading the undeclared
`MINIMAL_CONFIG`. -/
def MINIMAL_CONFIG_REF_ERROR : String := "MINIMAL_CONFIG is not defined"

/-- `error.toString()` for a thrown `Error`. -/
def jsToString (msg : String) : String := "Error: " ++ msg

/-- One turn as the minimal variant stores it: `{ role, content }`. -/
structure MTurn where
  role : String
  content : String
  deriving DecidableEq

/-- Per-user cache entries (key `chat_<userId>`; an absent key parses to
`[]`) plus the log sheet. -/
structure MState where
  entries : String → List MTurn
  log : List LogRow

structure MOutcome where
  result : Except String String
  entries : String → List MTurn
  log : List LogRow
  fetches : Nat

/-- minimal `logToSheet`: its first statement dereferences the undeclared
`MINIMAL_CONFIG`; the resulting `ReferenceError` is swallowed by the
function's own `catch` (`console.error` only), so the log sheet is left
unchanged on every call. -/
def logToSheet (log : List LogRow) (_userId _role _message : String) : List LogRow :=
  log

/-- minimal `processMessage`: the validation throw happens inside the `try`
block, so the catch-all handler (`logToSheet(userId, 'error',
error.toString()); throw error;`) also runs for invalid input — but
`logToSheet` appends nothing (see above).  For valid input the undeclared
`MINIMAL_CONFIG` is dereferenced at the history-limit check before any
fetch, and the resulting `ReferenceError` takes the same catch path. -/
def processMessage (_oracle : Nat → FetchOutcome) (userId message : String)
    (st : MState) : MOutcome :=
  if userId = "" ∨ message = "" then
    ⟨.error MINIMAL_INVALID, st.entries,
     logToSheet st.log userId "error" (jsToString MINIMAL_INVALID), 0⟩
  else
    ⟨.error MINIMAL_CONFIG_REF_ERROR, st.entries,
     logToSheet st.log userId "error" ("ReferenceError: " ++ MINIMAL_CONFIG_REF_ERROR), 0⟩

end Minimal

/-! ### Spec-side vocabulary used by the theorems -/

/-- The last `n` elements of a list, in their original order. -/
def lastN {α : Type} (n : Nat) (l : List α) : List α :=
  (l.reverse.take n).reverse

/-- The rows `restoreHistoryFromLogSheet` keeps: this user's rows with a
non-empty message and a role other than `system`. -/
def restorable (userId : String) (row : LogRow) : Bool :=
  decide ((row.userId = userId ∧ row.message ≠ "") ∧ row.role ≠ "system")

/-- The turn reconstructed from a log row. -/
def rowToTurn (row : LogRow) : HistEntry :=
  { role := row.role, parts := [{ text := row.message }] }

/-! ### C3: the コード.js trimmer keeps exactly the last `MAX` turns -/

theorem drop_sub_eq_lastN (l : List HistEntry) :
    l.drop (l.length - MAX_HISTORY_LENGTH) = lastN MAX_HISTORY_LENGTH l := by
  have h : l.drop (l.length - MAX_HISTORY_LENGTH) =
      List.rtake l MAX_HISTORY_LENGTH := rfl
  rw [h, List.rtake_eq_reverse_take_reverse]
  rfl

/-- C3: for every conversation longer than the configured maximum (10), the
コード.js `trimConversationHistory` returns a conversation of length
exactly the maximum equal to the last `MAX` turns of the original, in
order; the part_000 trimmer agrees on every conversation of the data model
(whose turn roles are `user`/`model`, never `system`). -/
theorem c3_trim_keeps_last_max (conversation : List HistEntry)
    (h : conversation.length > MAX_HISTORY_LENGTH) :
    ((Code.trimConversationHistory conversation).length = MAX_HISTORY_LENGTH ∧
     Code.trimConversationHistory conversation =
       lastN MAX_HISTORY_LENGTH conversation) ∧
    ((∀ e ∈ conversation, e.role ≠ "system") →
      Perf.trimConversationHistory conversation =
        lastN MAX_HISTORY_LENGTH conversation) := by
  refine ⟨⟨?_, ?_⟩, ?_⟩
  · unfold Code.trimConversationHistory
    rw [if_pos h, List.length_drop]
    omega
  · unfold Code.trimConversationHistory
    rw [if_pos h]
    exact drop_sub_eq_lastN conversation
  · intro hn
    unfold Perf.trimConversationHistory
    rw [if_pos h]
    have h1 : conversation.filter (fun msg => decide (msg.role = "system")) = [] := by
      rw [List.filter_eq_nil_iff]
      intro a ha
      simp [hn a ha]
    have h2 : conversation.filter (fun msg => decide (¬ msg.role = "system")) = conversation := by
      rw [List.filter_eq_self]
      intro a ha
      simp [hn a ha]
    rw [h1, h2]
    unfold Perf.jsSliceFrom
    dsimp only
    have hneg : ¬ ((conversation.length : Int) - (MAX_HISTORY_LENGTH : Int) < 0) := by
      have : MAX_HISTORY_LENGTH = 10 := rfl
      omega
    rw [if_neg hneg]
    have htd : ((conversation.length : Int) - (MAX_HISTORY_LENGTH : Int)).toNat =
        conversation.length - MAX_HISTORY_LENGTH := by
      omega
    rw [htd, List.nil_append]
    exact drop_sub_eq_lastN conversation

theorem c3_witness :
    (List.replicate 11 (⟨"user", [⟨"x"⟩]⟩ : HistEntry)).length > MAX_HISTORY_LENGTH ∧
    (Code.trimConversationHistory (List.replicate 11 ⟨"user", [⟨"x"⟩]⟩)).length =
      MAX_HISTORY_LENGTH :=
  ⟨by decide, ((c3_trim_keeps_last_max (List.replicate 11 ⟨"user", [⟨"x"⟩]⟩) (by decide)).1).1⟩

/-! ### C6: behaviour of `extractResponseText` -/

/-- C6 (amended): `extractResponseText` fails with `NO_RESPONSE` exactly
when the reply-text path `candidates[0].content.parts[0].text` is absent;
when the path exists it returns that text — even when the text is the empty
string (emptiness of the text is not checked). -/
theorem c6_extract_response_text (r : GeminiResponse) :
    (extractResponseText r = .error NO_RESPONSE ↔ firstPartText r = none) ∧
    (∀ t, firstPartText r = some t → extractResponseText r = .ok t) := by
  obtain ⟨cands⟩ := r
  cases cands with
  | nil => simp [extractResponseText, firstPartText]
  | cons c rest =>
    obtain ⟨content⟩ := c
    cases content with
    | none => simp [extractResponseText, firstPartText]
    | some ct =>
      obtain ⟨parts⟩ := ct
      cases parts with
      | nil => simp [extractResponseText, firstPartText]
      | cons p ps =>
        constructor
        · constructor
          · intro h; simp [extractResponseText] at h
          · intro h; simp [firstPartText] at h
        · intro t ht
          simp [firstPartText] at ht
          simp [extractResponseText, ht]

def respEmptyText : GeminiResponse := ⟨[⟨some ⟨[⟨""⟩]⟩⟩]⟩

/-- C6 counterexample: the reply text exists but is empty, yet the call
does not fail with `NO_RESPONSE` — it returns the empty string. -/
theorem c6_counterexample :
    firstPartText respEmptyText = some "" ∧
    extractResponseText respEmptyText = .ok "" ∧
    extractResponseText respEmptyText ≠ .error NO_RESPONSE := by
  refine ⟨rfl, rfl, ?_⟩
  decide

def respHello : GeminiResponse := ⟨[⟨some ⟨[⟨"hi there"⟩]⟩⟩]⟩

theorem c6_witness : extractResponseText respHello = .ok "hi there" :=
  (c6_extract_response_text respHello).2 "hi there" rfl

/-! ### C7: `restoreHistoryFromLogSheet` -/

theorem restoreGo_eq (userId : String) (limit : Nat) :
    ∀ (rev : List LogRow) (acc : List HistEntry),
      Perf.restoreGo userId limit rev acc =
        (((rev.filter (restorable userId)).take (limit - acc.length)).map rowToTurn).reverse
          ++ acc := by
  intro rev
  induction rev with
  | nil => intro acc; simp [Perf.restoreGo]
  | cons row rest ih =>
    intro acc
    by_cases hacc : acc.length < limit
    · by_cases h1 : row.userId = userId ∧ row.message ≠ ""
      · by_cases h2 : row.role ≠ "system"
        · have hp : restorable userId row = true := by
            simp [restorable, h1.1, h1.2, h2]
          have htake : limit - acc.length = (limit - (acc.length + 1)) + 1 := by omega
          simp only [Perf.restoreGo, if_pos hacc, if_pos h1, if_pos h2]
          rw [ih]
          simp only [List.filter_cons, hp, if_pos rfl, htake, List.take_succ_cons,
            List.map_cons, List.reverse_cons, List.length_cons]
          simp [rowToTurn]
        · have hp : restorable userId row = false := by
            simp only [ne_eq, not_not] at h2
            simp [restorable, h2]
          simp only [Perf.restoreGo, if_pos hacc, if_pos h1, if_neg h2]
          rw [ih]
          simp [List.filter_cons, hp]
      · have hp : restorable userId row = false := by
          simp only [restorable, decide_eq_false_iff_not]
          intro hcontra
          exact h1 hcontra.1
        simp only [Perf.restoreGo, if_pos hacc, if_neg h1]
        rw [ih]
        simp [List.filter_cons, hp]
    · have : limit - acc.length = 0 := by omega
      simp [Perf.restoreGo, if_neg hacc, this]

/-- C7: the reconstructed conversation never exceeds `limit` turns, never
contains a `system`-role record, and equals the last `limit` kept rows of
the log in chronological (write) order. -/
theorem c7_restore_history (log : List LogRow) (userId : String) (limit : Nat) :
    (Perf.restoreHistoryFromLogSheet log userId limit).length ≤ limit ∧
    (∀ e ∈ Perf.restoreHistoryFromLogSheet log userId limit, e.role ≠ "system") ∧
    Perf.restoreHistoryFromLogSheet log userId limit =
      lastN limit ((log.filter (restorable userId)).map rowToTurn) := by
  have heq : Perf.restoreHistoryFromLogSheet log userId limit =
      lastN limit ((log.filter (restorable userId)).map rowToTurn) := by
    unfold Perf.restoreHistoryFromLogSheet
    rw [restoreGo_eq]
    simp only [List.length_nil, Nat.sub_zero, List.append_nil, lastN,
      List.filter_reverse, List.map_reverse]
    simp [List.map_take, List.map_reverse]
  refine ⟨?_, ?_, heq⟩
  · rw [heq]
    simp only [lastN, List.length_reverse, List.length_take]
    omega
  · intro e he
    rw [heq] at he
    simp only [lastN, List.mem_reverse] at he
    have he2 := List.mem_of_mem_take he
    simp only [List.mem_reverse, List.mem_map] at he2
    obtain ⟨row, hrow, hrw⟩ := he2
    have := List.of_mem_filter hrow
    simp only [restorable, decide_eq_true_eq] at this
    rw [← hrw]
    exact this.2

def demoLog : List LogRow :=
  [mkLogRow "u1" "user" "hello", mkLogRow "u1" "system" "[エラー] x",
   mkLogRow "u1" "model" "hi", mkLogRow "u2" "user" "yo"]

theorem c7_witness :
    (Perf.restoreHistoryFromLogSheet demoLog "u1" 2).length ≤ 2 ∧
    Perf.restoreHistoryFromLogSheet demoLog "u1" 2 =
      lastN 2 ((demoLog.filter (restorable "u1")).map rowToTurn) :=
  ⟨(c7_restore_history demoLog "u1" 2).1, (c7_restore_history demoLog "u1" 2).2.2⟩

/-! ### Retry-loop structure lemmas -/

/-- A transiently failing attempt (429, 503, or transport failure) records
a `lastError` and continues into the next iteration; the attempt costs one
fetch and contributes this iteration's entry sleep. -/
theorem callLoop_transient_step (oracle : Nat → FetchOutcome) (fuel attempt : Nat)
    (le : Option String) (h : isTransient (oracle attempt) = true) :
    ∃ m, callLoop oracle (fuel + 1) attempt le =
      ⟨preSleep attempt ++ (callLoop oracle fuel (attempt + 1) (some m)).sleeps,
       (callLoop oracle fuel (attempt + 1) (some m)).fetches + 1,
       (callLoop oracle fuel (attempt + 1) (some m)).result⟩ := by
  cases ho : oracle attempt with
  | reply code body rawText =>
    rw [ho] at h
    simp only [isTransient, Bool.or_eq_true, decide_eq_true_eq] at h
    have h200 : ¬ code = 200 := by omega
    refine ⟨transientReplyMsg code, ?_⟩
    simp only [callLoop, ho, if_neg h200, if_pos h]
  | raised msg =>
    rw [ho] at h
    simp only [isTransient] at h
    refine ⟨msg, ?_⟩
    simp [callLoop, ho, jsCatch, h]

/-- Every iteration begins with this iteration's entry sleep. -/
theorem callLoop_sleeps_eq (oracle : Nat → FetchOutcome) (fuel attempt : Nat)
    (le : Option String) :
    ∃ rest, (callLoop oracle (fuel + 1) attempt le).sleeps = preSleep attempt ++ rest := by
  cases ho : oracle attempt with
  | reply code body rawText =>
    by_cases h200 : code = 200
    · cases he : extractResponseText body with
      | ok text =>
        exact ⟨[], by simp [callLoop, ho, h200, he]⟩
      | error e =>
        cases hc : jsCatch e with
        | retry =>
          exact ⟨(callLoop oracle fuel (attempt + 1) (some e)).sleeps,
            by simp [callLoop, ho, h200, he, hc]⟩
        | rethrow =>
          exact ⟨[], by simp [callLoop, ho, h200, he, hc]⟩
    · by_cases htr : code = 429 ∨ code = 503
      · exact ⟨(callLoop oracle fuel (attempt + 1) (some (transientReplyMsg code))).sleeps,
          by simp [callLoop, ho, h200, htr]⟩
      · cases hc : jsCatch (apiCallFailedMsg code) with
        | retry =>
          exact ⟨(callLoop oracle fuel (attempt + 1) (some (apiCallFailedMsg code))).sleeps,
            by simp [callLoop, ho, h200, htr, hc]⟩
        | rethrow =>
          exact ⟨[], by simp [callLoop, ho, h200, htr, hc]⟩
  | raised msg =>
    cases hc : jsCatch msg with
    | retry =>
      exact ⟨(callLoop oracle fuel (attempt + 1) (some msg)).sleeps,
        by simp [callLoop, ho, hc]⟩
    | rethrow =>
      exact ⟨[], by simp [callLoop, ho, hc]⟩

/-- An iteration at position `k + 1` begins by sleeping
`baseDelay * 2 ^ k` milliseconds. -/
theorem callLoop_sleeps_head (oracle : Nat → FetchOutcome) (fuel k : Nat)
    (le : Option String) :
    ∃ rest, (callLoop oracle (fuel + 1) (k + 1) le).sleeps = (baseDelay * 2 ^ k) :: rest := by
  obtain ⟨rest, hrest⟩ := callLoop_sleeps_eq oracle fuel (k + 1) le
  refine ⟨rest, ?_⟩
  rw [hrest]
  simp [preSleep]

/-- Any iteration with fuel left performs at least one fetch. -/
theorem callLoop_fetches_pos (oracle : Nat → FetchOutcome) (fuel attempt : Nat)
    (le : Option String) :
    1 ≤ (callLoop oracle (fuel + 1) attempt le).fetches := by
  cases ho : oracle attempt with
  | reply code body rawText =>
    by_cases h200 : code = 200
    · cases he : extractResponseText body with
      | ok text => simp [callLoop, ho, h200, he]
      | error e =>
        cases hc : jsCatch e with
        | retry => simp [callLoop, ho, h200, he, hc]
        | rethrow => simp [callLoop, ho, h200, he, hc]
    · by_cases htr : code = 429 ∨ code = 503
      · simp [callLoop, ho, h200, htr]
      · cases hc : jsCatch (apiCallFailedMsg code) with
        | retry => simp [callLoop, ho, h200, htr, hc]
        | rethrow => simp [callLoop, ho, h200, htr, hc]
  | raised msg =>
    cases hc : jsCatch msg with
    | retry => simp [callLoop, ho, hc]
    | rethrow => simp [callLoop, ho, hc]

/-- The characters of `apiCallFailedMsg code` are the fixed Japanese prefix
plus decimal digits, so no pattern containing a character outside both can
occur in it. -/
theorem apiCallFailedMsg_not_includes (pat : String) (c : Char) (hc : c ∈ pat.data)
    (hpre : c ∉ (API_CALL_FAILED ++ ": ").data) (hd : c.isDigit = false) (code : Nat) :
    strIncludes (apiCallFailedMsg code) pat = false := by
  apply strIncludes_eq_false hc
  intro hmem
  have hsplit : (apiCallFailedMsg code).data =
      (API_CALL_FAILED ++ ": ").data ++ (Nat.repr code).data := by
    simp [apiCallFailedMsg, String.data_append]
  rw [hsplit] at hmem
  rcases List.mem_append.mp hmem with hmem | hmem
  · exact hpre hmem
  · have := repr_chars_isDigit code c hmem
    rw [hd] at this
    exact Bool.false_ne_true this

/-- A non-200, non-retryable status produces an error message containing no
transport marker and no `API一時エラー`, hence the catch rethrows it. -/
theorem jsCatch_apiCallFailed (code : Nat) :
    jsCatch (apiCallFailedMsg code) = .rethrow := by
  have h1 : strIncludes (apiCallFailedMsg code) "UrlFetchApp" = false :=
    apiCallFailedMsg_not_includes _ 'U' (by decide) (by decide) (by decide) code
  have h2 : strIncludes (apiCallFailedMsg code) "Network" = false :=
    apiCallFailedMsg_not_includes _ 'N' (by decide) (by decide) (by decide) code
  have h3 : strIncludes (apiCallFailedMsg code) "Timeout" = false :=
    apiCallFailedMsg_not_includes _ 'T' (by decide) (by decide) (by decide) code
  have h4 : strIncludes (apiCallFailedMsg code) "API一時エラー" = false :=
    apiCallFailedMsg_not_includes _ '一' (by decide) (by decide) (by decide) code
  simp [jsCatch, isTransportError, h1, h2, h3, h4]

/-- An attempt answered with any other non-200 status fails the whole call
immediately: one fetch, no further sleeps, the terminal error rethrown. -/
theorem callLoop_terminal (oracle : Nat → FetchOutcome) (fuel attempt : Nat)
    (le : Option String) (code : Nat) (body : GeminiResponse) (rawText : String)
    (ho : oracle attempt = .reply code body rawText)
    (h200 : code ≠ 200) (h429 : code ≠ 429) (h503 : code ≠ 503) :
    callLoop oracle (fuel + 1) attempt le =
      ⟨preSleep attempt, 1, .error (apiCallFailedMsg code)⟩ := by
  have htr : ¬ (code = 429 ∨ code = 503) := by
    intro h; rcases h with h | h
    · exact h429 h
    · exact h503 h
  simp only [callLoop, ho, if_neg h200, if_neg htr, jsCatch_apiCallFailed code]

/-! ### C4: exponential backoff on transient failures, immediate failure
otherwise -/

/-- C4: numbering attempts 1, 2, … (`j + 1` below), if every attempt up to
attempt `j + 1` fails transiently (HTTP 429, HTTP 503, or transport
failure) and the retry ceiling is not yet reached, the waits performed
before attempts 2, …, `j + 2` are `baseDelay * 2 ^ i` for `i = 0, …, j` and
a further attempt is made; if instead attempt `j + 1` is answered by any
other non-200 status, the call fails immediately with the terminal API
error after exactly `j + 1` fetches and no further waiting. -/
theorem c4_retry_policy (oracle : Nat → FetchOutcome) (j : Nat) :
    ((∀ i, i ≤ j → isTransient (oracle i) = true) → j + 1 < maxRetries →
      (callGeminiAPI oracle).sleeps.take (j + 1) =
        (List.range (j + 1)).map (fun i => baseDelay * 2 ^ i) ∧
      j + 2 ≤ (callGeminiAPI oracle).fetches) ∧
    ((∀ i, i < j → isTransient (oracle i) = true) → j < maxRetries →
      ∀ code body rawText, oracle j = .reply code body rawText →
        code ≠ 200 → code ≠ 429 → code ≠ 503 →
        (callGeminiAPI oracle).sleeps = (List.range j).map (fun i => baseDelay * 2 ^ i) ∧
        (callGeminiAPI oracle).fetches = j + 1 ∧
        (callGeminiAPI oracle).result = .error (apiCallFailedMsg code)) := by
  have hcall : callGeminiAPI oracle = callLoop oracle (2 + 1) 0 none := rfl
  constructor
  · intro ht hj
    have hj2 : j = 0 ∨ j = 1 := by
      have : maxRetries = 3 := rfl
      omega
    rcases hj2 with hj0 | hj1
    · subst hj0
      obtain ⟨m0, e0⟩ := callLoop_transient_step oracle 2 0 none (ht 0 (by omega))
      obtain ⟨r1, e1⟩ := callLoop_sleeps_head oracle 1 0 (some m0)
      have hfp : 1 ≤ (callLoop oracle 2 (0 + 1) (some m0)).fetches :=
        callLoop_fetches_pos oracle 1 1 (some m0)
      rw [hcall, e0]
      constructor
      · rw [e1]
        simp [preSleep, List.range_succ]
      · simp only [preSleep]
        omega
    · subst hj1
      obtain ⟨m0, e0⟩ := callLoop_transient_step oracle 2 0 none (ht 0 (by omega))
      obtain ⟨m1, e1⟩ := callLoop_transient_step oracle 1 1 (some m0) (ht 1 (by omega))
      obtain ⟨r2, e2⟩ := callLoop_sleeps_head oracle 0 1 (some m1)
      have hfp : 1 ≤ (callLoop oracle 1 (1 + 1) (some m1)).fetches :=
        callLoop_fetches_pos oracle 0 2 (some m1)
      rw [hcall, e0, e1]
      constructor
      · rw [e2]
        simp [preSleep, List.range_succ]
      · simp only [preSleep]
        omega
  · intro ht hj code body rawText ho h200 h429 h503
    have hj3 : j = 0 ∨ j = 1 ∨ j = 2 := by
      have : maxRetries = 3 := rfl
      omega
    rcases hj3 with hj0 | hj1 | hj2
    · subst hj0
      have e0 := callLoop_terminal oracle 2 0 none code body rawText ho h200 h429 h503
      rw [hcall, e0]
      refine ⟨by simp [preSleep], rfl, rfl⟩
    · subst hj1
      obtain ⟨m0, e0⟩ := callLoop_transient_step oracle 2 0 none (ht 0 (by omega))
      have e1 := callLoop_terminal oracle 1 1 (some m0) code body rawText ho h200 h429 h503
      rw [hcall, e0, e1]
      refine ⟨?_, rfl, rfl⟩
      simp [preSleep, List.range_succ]
    · subst hj2
      obtain ⟨m0, e0⟩ := callLoop_transient_step oracle 2 0 none (ht 0 (by omega))
      obtain ⟨m1, e1⟩ := callLoop_transient_step oracle 1 1 (some m0) (ht 1 (by omega))
      have e2 := callLoop_terminal oracle 0 2 (some m1) code body rawText ho h200 h429 h503
      rw [hcall, e0, e1, e2]
      refine ⟨?_, rfl, rfl⟩
      simp [preSleep, List.range_succ]

def oracle429 : Nat → FetchOutcome := fun _ => .reply 429 respHello "raw"
def oracle400 : Nat → FetchOutcome := fun _ => .reply 400 respHello "bad"

theorem c4_witness :
    ((callGeminiAPI oracle429).sleeps.take 1 = [baseDelay * 2 ^ 0] ∧
      2 ≤ (callGeminiAPI oracle429).fetches) ∧
    ((callGeminiAPI oracle400).sleeps = [] ∧
      (callGeminiAPI oracle400).fetches = 1 ∧
      (callGeminiAPI oracle400).result = .error (apiCallFailedMsg 400)) := by
  constructor
  · have h := (c4_retry_policy oracle429 0).1
      (fun i hi => by
        have h0 := Nat.le_zero.mp hi
        subst h0
        decide)
      (by decide)
    exact ⟨by rw [h.1]; rfl, h.2⟩
  · have h := (c4_retry_policy oracle400 0).2
      (fun i hi => absurd hi (by omega))
      (by decide) 400 respHello "bad" rfl (by decide) (by decide) (by decide)
    exact ⟨by rw [h.1]; rfl, h.2.1, h.2.2⟩

/-! ### C5: a permanently unavailable endpoint exhausts the retry ceiling -/

/-- C5: when every delivery attempt returns HTTP 503, `callGeminiAPI`
performs exactly `maxRetries` (3) attempts and then throws the
retries-exhausted error wrapping the last observed transient error. -/
theorem c5_retries_exhausted (oracle : Nat → FetchOutcome)
    (h : ∀ i, ∃ body rawText, oracle i = .reply 503 body rawText) :
    (callGeminiAPI oracle).fetches = maxRetries ∧
    (callGeminiAPI oracle).result =
      .error (retriesExhaustedMsg (some (transientReplyMsg 503))) ∧
    retriesExhaustedMsg (some (transientReplyMsg 503)) =
      "API呼び出しが3回失敗しました: API一時エラー (503): リトライします" := by
  obtain ⟨b0, r0, h0⟩ := h 0
  obtain ⟨b1, r1, h1⟩ := h 1
  obtain ⟨b2, r2, h2⟩ := h 2
  have hcall : callGeminiAPI oracle = callLoop oracle 3 0 none := rfl
  rw [hcall]
  have hres : callLoop oracle 3 0 none =
      ⟨preSleep 0 ++ (preSleep 1 ++ (preSleep 2 ++ [])),
       ((0 + 1) + 1) + 1,
       .error (retriesExhaustedMsg (some (transientReplyMsg 503)))⟩ := by
    simp [callLoop, h0, h1, h2]
  rw [hres]
  refine ⟨rfl, rfl, by decide⟩

def oracle503 : Nat → FetchOutcome := fun _ => .reply 503 respHello "raw"

theorem c5_witness :
    (callGeminiAPI oracle503).fetches = maxRetries ∧
    (callGeminiAPI oracle503).result =
      .error (retriesExhaustedMsg (some (transientReplyMsg 503))) :=
  ⟨(c5_retries_exhausted oracle503 (fun _ => ⟨respHello, "raw", rfl⟩)).1,
   (c5_retries_exhausted oracle503 (fun _ => ⟨respHello, "raw", rfl⟩)).2.1⟩

/-! ### Store-shape lemmas for the コード.js orchestrator -/

theorem trim_length_le (l : List HistEntry) :
    (Code.trimConversationHistory l).length ≤ MAX_HISTORY_LENGTH := by
  unfold Code.trimConversationHistory
  split
  · rw [List.length_drop]
    omega
  · omega

theorem trim_subset (l : List HistEntry) :
    ∀ e ∈ Code.trimConversationHistory l, e ∈ l := by
  unfold Code.trimConversationHistory
  split
  · intro e he
    exact List.mem_of_mem_drop he
  · intro e he
    exact he

theorem addMessage_length (h : List HistEntry) (role text : String) :
    (addMessageToHistory h role text).length = h.length + 1 := by
  simp [addMessageToHistory]

/-- A `processMessage` run either leaves the cache untouched (validation
failure or AI-client error) or saves the loaded store with this user's
conversation replaced by append-trim-append of the old one. -/
theorem processMessage_cache_cases (oracle : Nat → FetchOutcome)
    (userId message : String) (st : CacheState) :
    (Code.processMessage oracle userId message st).cache = st.cache ∨
    ∃ response,
      (Code.processMessage oracle userId message st).cache =
        some (storeSet (Code.getConversationHistory st) userId
          (addMessageToHistory
            (Code.trimConversationHistory
              (addMessageToHistory ((Code.getConversationHistory st) userId) "user" message))
            "model" response)) := by
  by_cases hu : userId = ""
  · left
    simp [Code.processMessage, hu]
  · by_cases hm : message = ""
    · left
      simp [Code.processMessage, hu, hm]
    · cases hc : (callGeminiAPI oracle).result with
      | error e =>
        left
        simp [Code.processMessage, hu, hm, hc]
      | ok response =>
        right
        exact ⟨response, by simp [Code.processMessage, hu, hm, hc]⟩

/-! ### C1: bound on stored conversation length -/

/-- C1 (amended): every store state reachable by `processMessage` calls
keeps every user's conversation at length at most `MAX + 1` (11).  The
bound `MAX` itself fails because the trim runs before the model reply is
appended; see the counterexample. -/
theorem c1_store_length_invariant :
    ∀ st, Code.Reachable st → ∀ s, st.cache = some s → ∀ userId,
      (s userId).length ≤ MAX_HISTORY_LENGTH + 1 := by
  intro st hst
  induction hst with
  | init =>
    intro s hs userId
    simp at hs
  | step oracle uid msg st hst ih =>
    intro s hs userId
    simp only at hs
    rcases processMessage_cache_cases oracle uid msg st with hcase | ⟨response, hcase⟩
    · rw [hcase] at hs
      exact ih s hs userId
    · rw [hcase] at hs
      injection hs with hs
      subst hs
      by_cases huid : userId = uid
      · simp only [storeSet, if_pos huid, addMessage_length]
        have := trim_length_le
          (addMessageToHistory ((Code.getConversationHistory st) uid) "user" msg)
        omega
      · simp only [storeSet, if_neg huid]
        unfold Code.getConversationHistory
        cases hcache : st.cache with
        | none => simp [emptyStore]
        | some s0 =>
          simp only [Option.getD_some]
          exact ih s0 hcache userId

def okOracle : Nat → FetchOutcome := fun _ => .reply 200 respHello "raw"

/-- Iterated successful `processMessage` calls from a fresh deployment. -/
def c1Run : Nat → CacheState
  | 0 => ⟨none, []⟩
  | n + 1 =>
    ⟨(Code.processMessage okOracle "u1" "hello" (c1Run n)).cache,
     (Code.processMessage okOracle "u1" "hello" (c1Run n)).log⟩

/-- C1 counterexample: the sixth successful call stores a conversation of
length 11 > 10 for "u1" — the trim precedes the model-reply append, so the
claimed invariant `length ≤ MAX` fails on a reachable store. -/
theorem c1_counterexample :
    (Code.processMessage okOracle "u1" "hello" (c1Run 5)).result = .ok "hi there" ∧
    ((c1Run 6).cache.getD emptyStore "u1").length = MAX_HISTORY_LENGTH + 1 ∧
    MAX_HISTORY_LENGTH < ((c1Run 6).cache.getD emptyStore "u1").length := by
  refine ⟨?_, ?_, ?_⟩ <;> decide

theorem c1_witness :
    ((c1Run 1).cache.getD emptyStore "u1").length ≤ MAX_HISTORY_LENGTH + 1 :=
  c1_store_length_invariant (c1Run 1)
    (Code.Reachable.step okOracle "u1" "hello" (c1Run 0) Code.Reachable.init)
    ((c1Run 1).cache.getD emptyStore) rfl "u1"

/-! ### C10: shape of appended and persisted turns -/

/-- C10: the history-append operation appends exactly one element with the
given role and a one-element `parts` array holding the given text; and in
every reachable store every persisted turn has exactly one part and role
`user` or `model`. -/
theorem c10_turn_shape :
    (∀ (history : List HistEntry) (role text : String),
      addMessageToHistory history role text =
        history ++ [{ role := role, parts := [{ text := text }] }]) ∧
    (∀ st, Code.Reachable st → ∀ s, st.cache = some s → ∀ userId,
      ∀ e ∈ s userId, e.parts.length = 1 ∧ (e.role = "user" ∨ e.role = "model")) := by
  constructor
  · intro history role text
    rfl
  · intro st hst
    induction hst with
    | init =>
      intro s hs userId e he
      simp at hs
    | step oracle uid msg st hst ih =>
      intro s hs userId e he
      simp only at hs
      rcases processMessage_cache_cases oracle uid msg st with hcase | ⟨response, hcase⟩
      · rw [hcase] at hs
        exact ih s hs userId e he
      · rw [hcase] at hs
        injection hs with hs
        subst hs
        by_cases huid : userId = uid
        · simp only [storeSet, if_pos huid] at he
          simp only [addMessageToHistory, List.mem_append, List.mem_singleton] at he
          rcases he with he | he
          · have he2 := trim_subset _ e he
            simp only [List.mem_append, List.mem_singleton] at he2
            rcases he2 with he2 | he2
            · revert he2
              unfold Code.getConversationHistory
              cases hcache : st.cache with
              | none =>
                intro he2
                simp [emptyStore] at he2
              | some s0 =>
                intro he2
                exact ih s0 hcache uid e he2
            · subst he2
              exact ⟨rfl, Or.inl rfl⟩
          · subst he
            exact ⟨rfl, Or.inr rfl⟩
        · simp only [storeSet, if_neg huid] at he
          revert he
          unfold Code.getConversationHistory
          cases hcache : st.cache with
          | none =>
            intro he
            simp [emptyStore] at he
          | some s0 =>
            intro he
            exact ih s0 hcache userId e he

theorem c10_witness :
    (addMessageToHistory [] "user" "hi" =
      [{ role := "user", parts := [{ text := "hi" }] }]) ∧
    (∀ e ∈ ((c1Run 1).cache.getD emptyStore) "u1",
      e.parts.length = 1 ∧ (e.role = "user" ∨ e.role = "model")) :=
  ⟨c10_turn_shape.1 [] "user" "hi",
   c10_turn_shape.2 (c1Run 1)
     (Code.Reachable.step okOracle "u1" "hello" (c1Run 0) Code.Reachable.init)
     ((c1Run 1).cache.getD emptyStore) rfl "u1"⟩

/-! ### C9: a failed AI call does not persist the appended user turn -/

/-- C9 (amended): when the AI call fails after validation passes, the store
holding the newly appended user turn is never saved.  In コード.js the
cache is completely untouched; in the part_000 variant the cache afterwards
is exactly what the load produced (a cache-miss load may itself have
written the log-reconstructed history back), and on a cache hit it is the
original cache unchanged. -/
theorem c9_no_save_on_failure (oracle : Nat → FetchOutcome)
    (userId message : String) (st : CacheState) (e : String)
    (hu : userId ≠ "") (hm : message ≠ "")
    (hc : (callGeminiAPI oracle).result = .error e) :
    (Code.processMessage oracle userId message st).cache = st.cache ∧
    (Perf.processMessage oracle userId message st).cache =
      (Perf.getConversationHistory userId st).2 ∧
    (∀ s0, st.cache = some s0 →
      (Perf.processMessage oracle userId message st).cache = st.cache) := by
  refine ⟨?_, ?_, ?_⟩
  · simp [Code.processMessage, hu, hm, hc]
  · cases hcl : Perf.classifyProcessError e <;>
      simp [Perf.processMessage, hu, hm, hc, hcl]
  · intro s0 hs0
    cases hcl : Perf.classifyProcessError e <;>
      simp [Perf.processMessage, Perf.getConversationHistory, hu, hm, hc, hcl, hs0]

def preLog : List LogRow := [mkLogRow "u1" "user" "hola"]

/-- An expired cache over a log that already holds one turn for "u1". -/
def expiredState : CacheState := ⟨none, preLog⟩

/-- C9 counterexample: in the part_000 variant a cache-miss load restores
the logged history and writes it back to the cache before the AI call, so
after a failing call the cached store has changed (from absent to
present) — the claim that it is "left unchanged" fails. -/
theorem c9_counterexample :
    expiredState.cache = none ∧
    (Perf.processMessage oracle503 "u1" "hi" expiredState).cache.isSome = true := by
  refine ⟨rfl, ?_⟩
  decide

theorem c9_witness :
    (Code.processMessage oracle503 "u1" "hi" expiredState).cache = expiredState.cache ∧
    (Perf.processMessage oracle503 "u1" "hi" expiredState).cache =
      (Perf.getConversationHistory "u1" expiredState).2 :=
  ⟨(c9_no_save_on_failure oracle503 "u1" "hi" expiredState
      (retriesExhaustedMsg (some (transientReplyMsg 503)))
      (by decide) (by decide) (by decide)).1,
   (c9_no_save_on_failure oracle503 "u1" "hi" expiredState
      (retriesExhaustedMsg (some (transientReplyMsg 503)))
      (by decide) (by decide) (by decide)).2.1⟩

/-! ### C2: error propagation and conversion policy -/

/-- The six fixed user-facing strings of part_000. -/
def userFacingStrings : List String :=
  [USER_RATE_LIMIT, USER_SERVICE_UNAVAILABLE, USER_NETWORK_ERROR,
   USER_TIMEOUT, USER_API_ERROR, USER_GENERIC_ERROR]

theorem strIncludes_API_of_API_KEY (e : String)
    (h : strIncludes e "API_KEY" = true) : strIncludes e "API" = true := by
  have hsplit : ("API_KEY" : String).data = ("API" : String).data ++ ("_KEY" : String).data := by
    decide
  unfold strIncludes at h ⊢
  rw [hsplit] at h
  exact occursIn_append_left h

/-- Every error whose message does not contain `INVALID` is classified to
one of the six fixed user-facing strings (the hard-coded `API_KEY` reply is
dead: any message containing `API_KEY` contains `API` and is classified
earlier). -/
theorem classify_mem (e : String) (h : strIncludes e "INVALID" = false) :
    ∃ u, Perf.classifyProcessError e = .reply u ∧ u ∈ userFacingStrings := by
  unfold Perf.classifyProcessError
  by_cases h429 : strIncludes e "429" = true
  · exact ⟨USER_RATE_LIMIT, by simp [h429], by simp [userFacingStrings]⟩
  · by_cases h503 : strIncludes e "503" = true
    · exact ⟨USER_SERVICE_UNAVAILABLE, by simp [h429, h503], by simp [userFacingStrings]⟩
    · by_cases hnet : (strIncludes e "Network" || strIncludes e "UrlFetch") = true
      · exact ⟨USER_NETWORK_ERROR, by simp [h429, h503, hnet], by simp [userFacingStrings]⟩
      · by_cases htmo : strIncludes e "Timeout" = true
        · exact ⟨USER_TIMEOUT, by simp [h429, h503, hnet, htmo], by simp [userFacingStrings]⟩
        · by_cases hapi : strIncludes e "API" = true
          · exact ⟨USER_API_ERROR, by simp [h429, h503, hnet, htmo, hapi],
              by simp [userFacingStrings]⟩
          · have hkey : strIncludes e "API_KEY" = false := by
              cases hk : strIncludes e "API_KEY"
              · rfl
              · exact absurd (strIncludes_API_of_API_KEY e hk) hapi
            exact ⟨USER_GENERIC_ERROR,
              by simp [h429, h503, hnet, htmo, hapi, hkey, h], by simp [userFacingStrings]⟩

/-- C2 (amended): validation errors (empty user id or message) are thrown
before the orchestrator's `try` and propagate verbatim; every error thrown
out of the AI-client call whose message does not contain `INVALID` —
including the missing-API-key configuration error — is caught, logged as a
system-role record, and converted to one of the six fixed user-facing
strings which is returned instead of the raw error text. -/
theorem c2_error_policy (oracle : Nat → FetchOutcome)
    (userId message : String) (st : CacheState) :
    ((Perf.processMessage oracle "" message st).result = .error INVALID_USER_ID) ∧
    (userId ≠ "" → (Perf.processMessage oracle userId "" st).result = .error INVALID_MESSAGE) ∧
    (userId ≠ "" → message ≠ "" → ∀ e, (callGeminiAPI oracle).result = .error e →
      strIncludes e "INVALID" = false →
      ∃ u, (Perf.processMessage oracle userId message st).result = .ok u ∧
        u ∈ userFacingStrings ∧
        (Perf.processMessage oracle userId message st).log =
          st.log ++ [mkLogRow userId "user" message,
                     mkLogRow userId "system" (Perf.systemErrText e)]) := by
  refine ⟨?_, ?_, ?_⟩
  · simp [Perf.processMessage]
  · intro hu
    simp [Perf.processMessage, hu]
  · intro hu hm e hc hinv
    obtain ⟨u, hcl, humem⟩ := classify_mem e hinv
    refine ⟨u, ?_, humem, ?_⟩ <;> simp [Perf.processMessage, hu, hm, hc, hcl]

def noKeyOracle : Nat → FetchOutcome := fun _ => .raised NO_API_KEY

/-- A live (non-expired) cache holding the empty mapping. -/
def hitState : CacheState := ⟨some emptyStore, []⟩

/-- C2 counterexample: the missing-API-key configuration error thrown while
an attempt builds the request URL is NOT propagated verbatim — its message
contains `API`, so the orchestrator converts it to the generic-API
user-facing string and returns that. -/
theorem c2_counterexample :
    (Perf.processMessage noKeyOracle "u1" "hi" hitState).result = .ok USER_API_ERROR ∧
    (Perf.processMessage noKeyOracle "u1" "hi" hitState).result ≠ .error NO_API_KEY := by
  refine ⟨?_, ?_⟩ <;> decide

theorem c2_witness :
    (Perf.processMessage oracle400 "" "hi" hitState).result = .error INVALID_USER_ID ∧
    ∃ u, (Perf.processMessage oracle400 "u1" "hi" hitState).result = .ok u ∧
      u ∈ userFacingStrings ∧
      (Perf.processMessage oracle400 "u1" "hi" hitState).log =
        hitState.log ++ [mkLogRow "u1" "user" "hi",
                         mkLogRow "u1" "system" (Perf.systemErrText (apiCallFailedMsg 400))] :=
  ⟨(c2_error_policy oracle400 "u1" "hi" hitState).1,
   (c2_error_policy oracle400 "u1" "hi" hitState).2.2 (by decide) (by decide)
     (apiCallFailedMsg 400) (by decide) (by decide)⟩

/-! ### C8: empty user id -/

/-- C8: `processMessage("", "hi")` fails with the invalid-input error,
issues no request to the AI endpoint, and appends no record to the log, in
all three variants.  In コード.js and part_000 validation precedes the
`try` block; in minimal-コード.js the catch-all handler does run but its
`logToSheet` swallows a `ReferenceError` (undeclared `MINIMAL_CONFIG`)
before reaching `appendRow`, so no record is appended there either. -/
theorem c8_empty_user_id (oracle : Nat → FetchOutcome)
    (st : CacheState) (stm : Minimal.MState) :
    (Code.processMessage oracle "" "hi" st =
      ⟨.error INVALID_USER_ID, st.cache, st.log, 0⟩) ∧
    (Perf.processMessage oracle "" "hi" st =
      ⟨.error INVALID_USER_ID, st.cache, st.log, 0⟩) ∧
    ((Minimal.processMessage oracle "" "hi" stm).result = .error Minimal.MINIMAL_INVALID ∧
     (Minimal.processMessage oracle "" "hi" stm).fetches = 0 ∧
     (Minimal.processMessage oracle "" "hi" stm).log = stm.log) :=
  ⟨rfl, rfl, rfl, rfl, rfl⟩

end GeminiChat
